import Mathlib

/-!
Shallow embedding of the Time Police audit backend (src/app.py).

The program is a FastAPI service that fetches the team members and their time
entries from the ClickUp API, classifies every entry with two fraud
heuristics, groups the entries by task, and returns a sorted and counted
audit report.  The network and the HTTP framework are external collaborators:
every network call is modelled by a parameter carrying the outcome of that
call, and the pure processing of the source is translated directly.
-/

/-! ## Configuration (src/app.py, line 34) -/

/-- Fraud detection threshold, 5 minutes.  Held as a rational because the
source compares it against the result of a Python float division. -/
def SHORT_TASK_THRESHOLD_MINUTES : ℚ := 5

/-! ## Utility functions (lines 118-132) -/

/-- Translation of ms_to_duration_str (lines 118-132): convert a duration in
milliseconds to a readable format like "1h 30m 45s".  Durations are
non-negative integers, so Python floor division and modulo coincide with Nat
division and modulo. -/
def ms_to_duration_str (duration_ms : Nat) : String :=
  let total_seconds := duration_ms / 1000
  let hours := total_seconds / 3600
  let minutes := (total_seconds % 3600) / 60
  let seconds := total_seconds % 60
  let parts : List String :=
    (if hours > 0 then [toString hours ++ "h"] else []) ++
    (if minutes > 0 then [toString minutes ++ "m"] else []) ++
    [toString seconds ++ "s"]
  String.intercalate " " parts

/-! ## Fraud detection (lines 138-164) -/

/-- Translation of check_zero_seconds_trap (lines 138-142): the duration,
truncated to whole seconds, has seconds-of-minute component 0, and the
duration is strictly positive. -/
def check_zero_seconds_trap (duration_ms : Nat) : Bool :=
  let total_seconds := duration_ms / 1000
  let seconds := total_seconds % 60
  seconds == 0 && duration_ms > 0

/-- Translation of check_short_task (lines 145-148).  Python evaluates the
division in binary floating point; it is modelled by exact rational
division.  The two agree on every integer input: 5 is exactly representable,
a real quotient that is at least 5 rounds to a double that is at least 5,
and below 300000 ms the quotient is at most 5 - 1/60000, far outside the
rounding neighbourhood of 5. -/
def check_short_task (duration_ms : Nat) : Bool :=
  let duration_minutes : ℚ := (duration_ms : ℚ) / 60000
  duration_minutes < SHORT_TASK_THRESHOLD_MINUTES

/-- Translation of get_verdict (lines 151-164): collect the labels of the
heuristics that fire and join them with " | ", or return the clean label. -/
def get_verdict (duration_ms : Nat) : String :=
  let verdicts : List String :=
    (if check_zero_seconds_trap duration_ms then ["🚨 FRAUD (0s Signature)"] else []) ++
    (if check_short_task duration_ms then ["⚠️ POTENTIAL FRAUD (Short Duration)"] else [])
  if verdicts = [] then "✅ CLEAN" else String.intercalate " | " verdicts

/-! ## Substring matching

The aggregator (lines 304-309, 321-328 and 341) re-derives the severity of an
entry from its verdict string with Python's substring operator. -/

/-- Does the pattern occur at the front of the text? -/
def matchesAt : List Char → List Char → Bool
  | [], _ => true
  | _ :: _, [] => false
  | p :: ps, c :: cs => p == c && matchesAt ps cs

/-- Does the pattern occur anywhere in the text? -/
def occursIn (p : List Char) : List Char → Bool
  | [] => matchesAt p []
  | c :: cs => matchesAt p (c :: cs) || occursIn p cs

/-- Model of the Python substring test of a pattern inside a string. -/
def strContains (s pat : String) : Bool := occursIn pat.toList s.toList

/-- Condition selecting the FRAUD bucket (line 304, also the sort keys at
lines 322 and 341): the verdict string contains "FRAUD" but not
"POTENTIAL". -/
def verdict_is_fraud (v : String) : Bool :=
  strContains v "FRAUD" && !(strContains v "POTENTIAL")

/-- Condition selecting the POTENTIAL_FRAUD bucket (lines 306, 323 and 341):
the verdict string contains "POTENTIAL". -/
def verdict_is_potential (v : String) : Bool := strContains v "POTENTIAL"

/-- The three severities of the data model. -/
inductive Severity where
  | FRAUD
  | POTENTIAL_FRAUD
  | CLEAN
deriving DecidableEq

/-- Severity of an entry exactly as the aggregator derives it from the
verdict string (the if/elif/else at lines 304-309). -/
def verdict_severity (v : String) : Severity :=
  if verdict_is_fraud v then .FRAUD
  else if verdict_is_potential v then .POTENTIAL_FRAUD
  else .CLEAN

/-! ## Data model (pydantic models, lines 68-95, and raw ClickUp payloads) -/

structure TimeEntry where
  user : String
  email : String
  duration : String
  duration_ms : Nat
  verdict : String
deriving DecidableEq

structure TaskGroup where
  task_name : String
  task_id : String
  status : String
  entries : List TimeEntry
deriving DecidableEq

structure AuditSummary where
  total : Nat
  fraud : Nat
  potential : Nat
  clean : Nat
deriving DecidableEq

/-- AuditResponse (lines 90-95).  The wall-clock fields timestamp and
audit_period are formatted from the current time and lie outside the pure
model. -/
structure AuditResponse where
  success : Bool
  summary : AuditSummary
  tasks : List TaskGroup
deriving DecidableEq

/-- Fields of the user object of one team member (lines 182-187); every field
may be absent from the payload. -/
structure TeamUser where
  id : Option String
  username : Option String
  email : Option String
deriving DecidableEq

/-- One element of the members list of the team payload (line 179); the user
object may be absent. -/
structure TeamMember where
  user : Option TeamUser
deriving DecidableEq

/-- The relevant shape of the team payload (line 179). -/
structure TeamPayload where
  members : List TeamMember
deriving DecidableEq

/-- A user as get_all_users returns it (lines 183-187). -/
structure User where
  id : String
  username : String
  email : String
deriving DecidableEq

/-- User object carried on a raw time entry (lines 291-293). -/
structure RawEntryUser where
  username : Option String
  email : Option String
deriving DecidableEq

/-- Task object carried on a raw time entry (lines 295-297). -/
structure RawEntryTask where
  name : Option String
  id : Option String
deriving DecidableEq

/-- A raw time entry as the provider returns it (consumed at lines 290-299):
optional user and task objects and an optional duration in milliseconds. -/
structure RawEntry where
  user : Option RawEntryUser
  task : Option RawEntryTask
  duration : Option Nat
deriving DecidableEq

/-- Outcome of one HTTP GET as the calling code observes it: either the
client raised a network-level exception, or it produced a response with a
status code and a body, where a body of none stands for a payload on which
JSON decoding raises. -/
inductive FetchResult (α : Type) where
  | netError (msg : String)
  | response (status : Nat) (body : Option α)
deriving DecidableEq

/-- Success range of raise_for_status of httpx: it raises unless the status
code is 2xx. -/
def is2xx (status : Nat) : Bool := 200 ≤ status && status < 300

/-- HTTPException of FastAPI, raised by run_audit at line 277. -/
structure HTTPException where
  status_code : Nat
  detail : String
deriving DecidableEq

/-! ## Provider client (lines 170-231) -/

/-- Translation of get_all_users (lines 170-192).  The try block is the
success path; a network error, a non-2xx status (raise_for_status) or a
malformed body (the json call) all land in the except branch, which returns
the empty list.  On success the members are read off the payload; a missing
id is stringified to "None", a missing username defaults to "Unknown" and a
missing email to the empty string. -/
def get_all_users : FetchResult TeamPayload → List User
  | .netError _ => []
  | .response status body =>
    if !(is2xx status) then []
    else
      match body with
      | none => []
      | some data =>
        data.members.map (fun member =>
          { id := (member.user.bind (fun u => u.id)).getD "None"
            username := (member.user.bind (fun u => u.username)).getD "Unknown"
            email := (member.user.bind (fun u => u.email)).getD "" })

/-- Translation of get_time_entries_for_user (lines 195-212): the same
fail-to-empty contract; on success the result is the data field of the
payload (line 209). -/
def get_time_entries_for_user : FetchResult (List RawEntry) → List RawEntry
  | .netError _ => []
  | .response status body =>
    if !(is2xx status) then []
    else
      match body with
      | none => []
      | some data => data

/-- Translation of get_all_time_entries (lines 215-231): build one fetch per
user id, await them all (asyncio.gather returns the results in argument
order; each call is modelled by its outcome), then extend the accumulator
with each result in order. -/
def get_all_time_entries (entriesResult : String → FetchResult (List RawEntry))
    (user_ids : List String) : List RawEntry :=
  let tasks := user_ids.map (fun uid => get_time_entries_for_user (entriesResult uid))
  let results := tasks
  results.foldl (fun all_entries entries => all_entries ++ entries) []

/-! ## Audit aggregator (lines 259-361) -/

/-- Accumulator of the entry-processing loop (lines 285-318): the per-task
groups in first-encounter order (Python dicts preserve insertion order) and
the three counters. -/
structure AuditState where
  tasks_data : List ((String × String) × List TimeEntry)
  fraud_count : Nat
  potential_count : Nat
  clean_count : Nat

/-- Model of appending to one key of a defaultdict of lists (line 312):
append to the existing group of the key, or start a new group at the end. -/
def groupAppend : List ((String × String) × List TimeEntry) →
    (String × String) → TimeEntry → List ((String × String) × List TimeEntry)
  | [], key, e => [(key, [e])]
  | g :: gs, key, e =>
    if g.1 = key then (g.1, g.2 ++ [e]) :: gs else g :: groupAppend gs key e

/-- One iteration of the processing loop (lines 290-318): resolve the user,
task and duration fields with their defaults, format and classify the
duration, bump the counter that the verdict string selects (lines 304-309),
and file the entry under its task key. -/
def processEntry (st : AuditState) (entry : RawEntry) : AuditState :=
  let user_name := (entry.user.bind (fun u => u.username)).getD "Unknown User"
  let user_email := (entry.user.bind (fun u => u.email)).getD ""
  let task_name := (entry.task.bind (fun t => t.name)).getD "No Task"
  let task_id := (entry.task.bind (fun t => t.id)).getD "N/A"
  let duration_ms := entry.duration.getD 0
  let duration_str := ms_to_duration_str duration_ms
  let verdict := get_verdict duration_ms
  let timeEntry : TimeEntry :=
    { user := user_name, email := user_email, duration := duration_str,
      duration_ms := duration_ms, verdict := verdict }
  let st :=
    if verdict_is_fraud verdict then
      { st with fraud_count := st.fraud_count + 1 }
    else if verdict_is_potential verdict then
      { st with potential_count := st.potential_count + 1 }
    else
      { st with clean_count := st.clean_count + 1 }
  { st with tasks_data := groupAppend st.tasks_data (task_name, task_id) timeEntry }

/-- Translation of get_task_status (lines 321-328). -/
def get_task_status (entries : List TimeEntry) : String :=
  let has_fraud := entries.any (fun e => verdict_is_fraud e.verdict)
  let has_potential := entries.any (fun e => verdict_is_potential e.verdict)
  if has_fraud then "fraud"
  else if has_potential then "potential"
  else "clean"

/-- Sort key of the group sort (line 333). -/
def task_sort_key (x : (String × String) × List TimeEntry) : Nat :=
  if get_task_status x.2 = "fraud" then 0
  else if get_task_status x.2 = "potential" then 1
  else 2

/-- Sort key of the entry sort inside a group (line 341). -/
def entry_sort_key (x : TimeEntry) : Nat :=
  if verdict_is_fraud x.verdict then 0
  else if verdict_is_potential x.verdict then 1
  else 2

/-- Insert an element into a list behind every element whose key is strictly
smaller and in front of everything else. -/
def insortByKey {α : Type*} (key : α → Nat) (a : α) : List α → List α
  | [] => [a]
  | b :: bs => if key b < key a then b :: insortByKey key a bs else a :: b :: bs

/-- Model of the Python builtin sorted with an integer-valued key function:
sorted is a stable sort by the key, any two stable sorts of the same keyed
list are extensionally equal, and stable insertion sort is one such sort. -/
def sortByKey {α : Type*} (key : α → Nat) : List α → List α
  | [] => []
  | a :: as => insortByKey key a (sortByKey key as)

/-- Translation of the pure part of run_audit (lines 259-361).  The two
network interactions are parameters: usersResult is the outcome of the team
call inside get_all_users, and entriesResult the outcome of the time-entry
call per user id.  The lookback-window arithmetic and the formatted
timestamps (lines 266-270 and 346-353) read the wall clock and lie outside
the model; the summary and the task groups are translated in full. -/
def run_audit (usersResult : FetchResult TeamPayload)
    (entriesResult : String → FetchResult (List RawEntry)) :
    Except HTTPException AuditResponse :=
  let users := get_all_users usersResult
  if users = [] then
    .error { status_code := 500, detail := "Failed to fetch users" }
  else
    let user_ids := users.map (fun u => u.id)
    let entries := get_all_time_entries entriesResult user_ids
    let st := entries.foldl processEntry
      { tasks_data := [], fraud_count := 0, potential_count := 0, clean_count := 0 }
    let sorted_tasks := sortByKey task_sort_key st.tasks_data
    let task_groups : List TaskGroup := sorted_tasks.map (fun g =>
      { task_name := g.1.1, task_id := g.1.2, status := get_task_status g.2,
        entries := sortByKey entry_sort_key g.2 })
    .ok { success := true,
          summary := { total := entries.length, fraud := st.fraud_count,
                       potential := st.potential_count, clean := st.clean_count },
          tasks := task_groups }

/-! ## Kernel-computable refinement

The rational division of Mathlib does not reduce inside the kernel, so the
definitions above cannot be evaluated by decide even though they are
computable.  The following twins replace the single rational comparison by
the equivalent integer comparison, are proved equal to the originals below,
and carry all concrete evaluations. -/

/-- Twin of check_short_task with the rational comparison replaced by the
equivalent integer comparison. -/
def check_short_task_exec (duration_ms : Nat) : Bool :=
  duration_ms < 300000

/-- Twin of get_verdict built on check_short_task_exec. -/
def get_verdict_exec (duration_ms : Nat) : String :=
  let verdicts : List String :=
    (if check_zero_seconds_trap duration_ms then ["🚨 FRAUD (0s Signature)"] else []) ++
    (if check_short_task_exec duration_ms then ["⚠️ POTENTIAL FRAUD (Short Duration)"] else [])
  if verdicts = [] then "✅ CLEAN" else String.intercalate " | " verdicts

/-- Twin of processEntry built on get_verdict_exec. -/
def processEntry_exec (st : AuditState) (entry : RawEntry) : AuditState :=
  let user_name := (entry.user.bind (fun u => u.username)).getD "Unknown User"
  let user_email := (entry.user.bind (fun u => u.email)).getD ""
  let task_name := (entry.task.bind (fun t => t.name)).getD "No Task"
  let task_id := (entry.task.bind (fun t => t.id)).getD "N/A"
  let duration_ms := entry.duration.getD 0
  let duration_str := ms_to_duration_str duration_ms
  let verdict := get_verdict_exec duration_ms
  let timeEntry : TimeEntry :=
    { user := user_name, email := user_email, duration := duration_str,
      duration_ms := duration_ms, verdict := verdict }
  let st :=
    if verdict_is_fraud verdict then
      { st with fraud_count := st.fraud_count + 1 }
    else if verdict_is_potential verdict then
      { st with potential_count := st.potential_count + 1 }
    else
      { st with clean_count := st.clean_count + 1 }
  { st with tasks_data := groupAppend st.tasks_data (task_name, task_id) timeEntry }

/-- Twin of run_audit built on processEntry_exec. -/
def run_audit_exec (usersResult : FetchResult TeamPayload)
    (entriesResult : String → FetchResult (List RawEntry)) :
    Except HTTPException AuditResponse :=
  let users := get_all_users usersResult
  if users = [] then
    .error { status_code := 500, detail := "Failed to fetch users" }
  else
    let user_ids := users.map (fun u => u.id)
    let entries := get_all_time_entries entriesResult user_ids
    let st := entries.foldl processEntry_exec
      { tasks_data := [], fraud_count := 0, potential_count := 0, clean_count := 0 }
    let sorted_tasks := sortByKey task_sort_key st.tasks_data
    let task_groups : List TaskGroup := sorted_tasks.map (fun g =>
      { task_name := g.1.1, task_id := g.1.2, status := get_task_status g.2,
        entries := sortByKey entry_sort_key g.2 })
    .ok { success := true,
          summary := { total := entries.length, fraud := st.fraud_count,
                       potential := st.potential_count, clean := st.clean_count },
          tasks := task_groups }

/-! ## Sample inputs and derived measures used by the theorems below -/

/-- A team payload with one member, used to drive concrete audit runs. -/
def sampleUsersResult : FetchResult TeamPayload :=
  .response 200 (some ⟨[⟨some ⟨some "7", some "alice", some "alice@example.com"⟩⟩]⟩)

/-- A raw time entry of the sample user on the sample task with the given
duration in milliseconds. -/
def entryWithDuration (d : Nat) : RawEntry :=
  { user := some ⟨some "alice", some "alice@example.com"⟩,
    task := some ⟨some "Task A", some "1"⟩,
    duration := some d }

/-- The audit response of a run over one entry of 600000 ms (10 minutes). -/
def c5resp : AuditResponse :=
  ⟨true, ⟨1, 1, 0, 0⟩,
    [⟨"Task A", "1", "fraud",
      [⟨"alice", "alice@example.com", "10m 0s", 600000, "🚨 FRAUD (0s Signature)"⟩]⟩]⟩

/-- Total number of time entries filed across a grouping. -/
def sumEntries (td : List ((String × String) × List TimeEntry)) : Nat :=
  (td.map (fun g => g.2.length)).sum

/-! ## Bridge lemmas between the definitions and their twins -/

theorem check_short_task_eq : check_short_task = check_short_task_exec := by
  funext dm
  unfold check_short_task check_short_task_exec SHORT_TASK_THRESHOLD_MINUTES
  simp only [decide_eq_decide]
  rw [div_lt_iff₀ (by norm_num : (0 : ℚ) < 60000)]
  norm_num

theorem get_verdict_eq : get_verdict = get_verdict_exec := by
  funext dm
  unfold get_verdict get_verdict_exec
  rw [check_short_task_eq]

theorem processEntry_eq : processEntry = processEntry_exec := by
  funext st entry
  unfold processEntry processEntry_exec
  rw [get_verdict_eq]

theorem run_audit_eq : run_audit = run_audit_exec := by
  funext usersResult entriesResult
  unfold run_audit run_audit_exec
  rw [processEntry_eq]

/-! ## String-formatting helper lemmas -/

theorem intercalate_one (a : String) : String.intercalate " " [a] = a := rfl

theorem intercalate_two (a b : String) : String.intercalate " " [a, b] = a ++ " " ++ b := rfl

theorem intercalate_three (a b c : String) :
    String.intercalate " " [a, b, c] = a ++ " " ++ b ++ " " ++ c := rfl

theorem hsplit : ("h " : String) = "h" ++ " " := rfl

theorem msplit : ("m " : String) = "m" ++ " " := rfl

/-- Claim C9: for every non-negative integer duration, ms_to_duration_str
decomposes it by integer division into hours, minutes and seconds, omits the
hours and minutes units when they are zero, always emits the seconds unit,
and in particular maps 5400000 to "1h 30m 0s", 45000 to "45s" and 0 to
"0s". -/
theorem ms_to_duration_str_spec :
    (∀ duration_ms : Nat,
      ms_to_duration_str duration_ms =
        (if duration_ms / 1000 / 3600 = 0 then ""
         else toString (duration_ms / 1000 / 3600) ++ "h ") ++
        (if duration_ms / 1000 % 3600 / 60 = 0 then ""
         else toString (duration_ms / 1000 % 3600 / 60) ++ "m ") ++
        (toString (duration_ms / 1000 % 60) ++ "s")) ∧
    ms_to_duration_str 5400000 = "1h 30m 0s" ∧
    ms_to_duration_str 45000 = "45s" ∧
    ms_to_duration_str 0 = "0s" := by
  refine ⟨?_, by decide, by decide, by decide⟩
  intro dm
  simp only [ms_to_duration_str]
  rcases Nat.eq_zero_or_pos (dm / 1000 / 3600) with h1 | h1 <;>
    rcases Nat.eq_zero_or_pos (dm / 1000 % 3600 / 60) with h2 | h2
  · simp only [h1, h2, lt_irrefl, if_neg (lt_irrefl 0), if_pos rfl]
    simp [intercalate_one]
  · simp only [h1, if_neg (lt_irrefl 0), if_pos rfl, if_pos h2, if_neg (Nat.pos_iff_ne_zero.mp h2)]
    simp [intercalate_two, msplit, String.append_assoc]
  · simp only [h2, if_neg (lt_irrefl 0), if_pos rfl, if_pos h1, if_neg (Nat.pos_iff_ne_zero.mp h1)]
    simp [intercalate_two, hsplit, String.append_assoc, String.append_empty]
  · simp only [if_pos h1, if_pos h2, if_neg (Nat.pos_iff_ne_zero.mp h1),
      if_neg (Nat.pos_iff_ne_zero.mp h2)]
    simp [intercalate_three, hsplit, msplit, String.append_assoc]

/-! ## Stable sort lemmas -/

theorem insort_perm {α : Type*} (key : α → Nat) (a : α) (l : List α) :
    List.Perm (insortByKey key a l) (a :: l) := by
  induction l with
  | nil => simp [insortByKey]
  | cons b bs ih =>
    by_cases h : key b < key a
    · simp only [insortByKey, if_pos h]
      exact (ih.cons b).trans (List.Perm.swap a b bs)
    · simp [insortByKey, if_neg h]

theorem pairwise_insort {α : Type*} (key : α → Nat) (a : α) (l : List α)
    (h : l.Pairwise (fun x y => key x ≤ key y)) :
    (insortByKey key a l).Pairwise (fun x y => key x ≤ key y) := by
  induction l with
  | nil => simp [insortByKey]
  | cons b bs ih =>
    rcases List.pairwise_cons.mp h with ⟨hb, hbs⟩
    by_cases hc : key b < key a
    · simp only [insortByKey, if_pos hc]
      refine List.pairwise_cons.mpr ⟨?_, ih hbs⟩
      intro x hx
      rcases List.mem_cons.mp ((insort_perm key a bs).mem_iff.mp hx) with rfl | hxbs
      · exact Nat.le_of_lt hc
      · exact hb x hxbs
    · simp only [insortByKey, if_neg hc]
      refine List.pairwise_cons.mpr ⟨?_, h⟩
      intro x hx
      rcases List.mem_cons.mp hx with rfl | hxbs
      · exact Nat.le_of_not_lt hc
      · exact le_trans (Nat.le_of_not_lt hc) (hb x hxbs)

theorem sortByKey_perm {α : Type*} (key : α → Nat) (l : List α) :
    List.Perm (sortByKey key l) l := by
  induction l with
  | nil => simp [sortByKey]
  | cons a as ih => exact (insort_perm key a (sortByKey key as)).trans (ih.cons a)

theorem sortByKey_pairwise {α : Type*} (key : α → Nat) (l : List α) :
    (sortByKey key l).Pairwise (fun x y => key x ≤ key y) := by
  induction l with
  | nil => simp [sortByKey]
  | cons a as ih => exact pairwise_insort key a _ ih

theorem insort_of_le {α : Type*} (key : α → Nat) (a : α) (l : List α)
    (h : ∀ b ∈ l, key a ≤ key b) : insortByKey key a l = a :: l := by
  cases l with
  | nil => rfl
  | cons b bs =>
    have : ¬ key b < key a := Nat.not_lt.mpr (h b (List.mem_cons_self b bs))
    simp [insortByKey, this]

theorem sortByKey_of_pairwise {α : Type*} (key : α → Nat) (l : List α)
    (h : l.Pairwise (fun x y => key x ≤ key y)) : sortByKey key l = l := by
  induction l with
  | nil => rfl
  | cons a as ih =>
    rcases List.pairwise_cons.mp h with ⟨ha, has⟩
    simp only [sortByKey, ih has]
    exact insort_of_le key a as ha

theorem filter_insort_neg {α : Type*} (p : α → Bool) (key : α → Nat) (a : α) (l : List α)
    (h : p a = false) : (insortByKey key a l).filter p = l.filter p := by
  induction l with
  | nil => simp [insortByKey, h]
  | cons b bs ih =>
    by_cases hc : key b < key a
    · simp only [insortByKey, if_pos hc, List.filter_cons, ih]
    · simp [insortByKey, if_neg hc, List.filter_cons, h]

theorem filter_insort_pos {α : Type*} (p : α → Bool) (key : α → Nat) (a : α) (l : List α)
    (h : p a = true) (hall : ∀ x ∈ l, p x = true → ¬ key x < key a) :
    (insortByKey key a l).filter p = a :: l.filter p := by
  induction l with
  | nil => simp [insortByKey, h]
  | cons b bs ih =>
    by_cases hc : key b < key a
    · have hpb : p b = false := by
        cases hpb : p b
        · rfl
        · exact absurd hc (hall b (List.mem_cons_self b bs) hpb)
      simp only [insortByKey, if_pos hc, List.filter_cons, hpb, Bool.false_eq_true, if_false]
      exact ih (fun x hx hpx => hall x (List.mem_cons_of_mem b hx) hpx)
    · simp [insortByKey, if_neg hc, List.filter_cons, h]

theorem filter_sortByKey {α : Type*} (p : α → Bool) (key : α → Nat) (l : List α)
    (hp : ∀ x y, p x = true → p y = true → key x = key y) :
    (sortByKey key l).filter p = l.filter p := by
  induction l with
  | nil => rfl
  | cons a as ih =>
    simp only [sortByKey]
    by_cases hpa : p a = true
    · rw [filter_insort_pos p key a _ hpa
        (fun x _ hpx => by rw [hp x a hpx hpa]; exact lt_irrefl _), ih]
      simp [List.filter_cons, hpa]
    · have hpa2 : p a = false := Bool.eq_false_iff.mpr hpa
      rw [filter_insort_neg p key a _ hpa2, ih]
      simp [List.filter_cons, hpa2]

theorem sortByKey_idem {α : Type*} (key : α → Nat) (l : List α) :
    sortByKey key (sortByKey key l) = sortByKey key l :=
  sortByKey_of_pairwise key _ (sortByKey_pairwise key l)

/-! ## Counting lemmas for the processing loop -/

theorem groupAppend_sum (td : List ((String × String) × List TimeEntry))
    (key : String × String) (e : TimeEntry) :
    sumEntries (groupAppend td key e) = sumEntries td + 1 := by
  induction td with
  | nil => simp [groupAppend, sumEntries]
  | cons g gs ih =>
    by_cases h : g.1 = key
    · simp [groupAppend, h, sumEntries]
      omega
    · simp only [groupAppend, if_neg h]
      simp only [sumEntries, List.map_cons, List.sum_cons] at ih ⊢
      omega

theorem processEntry_counts (st : AuditState) (e : RawEntry) :
    ((processEntry st e).fraud_count + (processEntry st e).potential_count +
        (processEntry st e).clean_count =
      st.fraud_count + st.potential_count + st.clean_count + 1) ∧
    sumEntries (processEntry st e).tasks_data = sumEntries st.tasks_data + 1 := by
  unfold processEntry
  by_cases h1 : verdict_is_fraud (get_verdict (e.duration.getD 0)) <;>
    by_cases h2 : verdict_is_potential (get_verdict (e.duration.getD 0)) <;>
      (simp [h1, h2, groupAppend_sum]; try omega)

theorem foldl_counts (entries : List RawEntry) : ∀ st : AuditState,
    ((entries.foldl processEntry st).fraud_count +
        (entries.foldl processEntry st).potential_count +
        (entries.foldl processEntry st).clean_count =
      st.fraud_count + st.potential_count + st.clean_count + entries.length) ∧
    sumEntries (entries.foldl processEntry st).tasks_data =
      sumEntries st.tasks_data + entries.length := by
  induction entries with
  | nil => intro st; simp
  | cons e es ih =>
    intro st
    simp only [List.foldl_cons, List.length_cons]
    have h := processEntry_counts st e
    have h2 := ih (processEntry st e)
    omega

theorem insort_map_sum {α : Type*} (f : α → Nat) (key : α → Nat) (a : α) (l : List α) :
    ((insortByKey key a l).map f).sum = f a + (l.map f).sum := by
  induction l with
  | nil => simp [insortByKey]
  | cons b bs ih =>
    by_cases h : key b < key a <;> (simp [insortByKey, h, ih]; try omega)

theorem sortByKey_map_sum {α : Type*} (f : α → Nat) (key : α → Nat) (l : List α) :
    ((sortByKey key l).map f).sum = (l.map f).sum := by
  induction l with
  | nil => rfl
  | cons a as ih => simp [sortByKey, insort_map_sum, ih]

theorem insort_length {α : Type*} (key : α → Nat) (a : α) (l : List α) :
    (insortByKey key a l).length = l.length + 1 := by
  induction l with
  | nil => rfl
  | cons b bs ih =>
    by_cases h : key b < key a <;> simp [insortByKey, h, ih]

theorem sortByKey_length {α : Type*} (key : α → Nat) (l : List α) :
    (sortByKey key l).length = l.length := by
  induction l with
  | nil => rfl
  | cons a as ih => simp [sortByKey, insort_length, ih]

theorem tasks_sum (td : List ((String × String) × List TimeEntry)) :
    ((sortByKey task_sort_key td).map (fun g => (sortByKey entry_sort_key g.2).length)).sum
      = (td.map (fun g => g.2.length)).sum := by
  have h1 : (sortByKey task_sort_key td).map (fun g => (sortByKey entry_sort_key g.2).length)
      = (sortByKey task_sort_key td).map (fun g => g.2.length) :=
    List.map_congr_left (fun g _ => sortByKey_length entry_sort_key g.2)
  rw [h1]
  exact sortByKey_map_sum (fun g => g.2.length) task_sort_key td

/-- Claim C5: for every audit result, the total equals the sum of the three
disjoint verdict buckets, and it also equals the total number of entries
filed across the task groups. -/
theorem audit_summary_invariant (usersResult : FetchResult TeamPayload)
    (entriesResult : String → FetchResult (List RawEntry)) (r : AuditResponse)
    (h : run_audit usersResult entriesResult = .ok r) :
    r.summary.total = r.summary.fraud + r.summary.potential + r.summary.clean ∧
    r.summary.total = (r.tasks.map (fun g => g.entries.length)).sum := by
  unfold run_audit at h
  dsimp only at h
  split at h
  · exact absurd h (by simp)
  · rcases Except.ok.inj h with rfl
    have hc := foldl_counts
      (get_all_time_entries entriesResult ((get_all_users usersResult).map (fun u => u.id)))
      { tasks_data := [], fraud_count := 0, potential_count := 0, clean_count := 0 }
    simp only [sumEntries, List.map_nil, List.sum_nil, Nat.zero_add] at hc
    constructor
    · dsimp only
      omega
    · dsimp only
      simp only [List.map_map, Function.comp_def]
      rw [tasks_sum]
      omega

/-- Witness for the summary invariant: a concrete one-entry audit run, with
the invariant instantiated on its result. -/
theorem audit_summary_invariant_witness :
    run_audit sampleUsersResult (fun _ => .response 200 (some [entryWithDuration 600000]))
      = .ok c5resp ∧
    c5resp.summary.total = c5resp.summary.fraud + c5resp.summary.potential + c5resp.summary.clean ∧
    c5resp.summary.total = (c5resp.tasks.map (fun g => g.entries.length)).sum := by
  have h : run_audit sampleUsersResult (fun _ => .response 200 (some [entryWithDuration 600000]))
      = .ok c5resp := by
    rw [run_audit_eq]; rfl
  exact ⟨h, audit_summary_invariant _ _ _ h⟩

/-! ## Classification lemmas -/

theorem check_short_task_iff (dm : Nat) : check_short_task dm = true ↔ dm < 300000 := by
  rw [check_short_task_eq]
  unfold check_short_task_exec
  simp

theorem get_verdict_cases (dm : Nat) :
    get_verdict dm =
      if check_zero_seconds_trap dm then
        if check_short_task dm then "🚨 FRAUD (0s Signature) | ⚠️ POTENTIAL FRAUD (Short Duration)"
        else "🚨 FRAUD (0s Signature)"
      else
        if check_short_task dm then "⚠️ POTENTIAL FRAUD (Short Duration)"
        else "✅ CLEAN" := by
  unfold get_verdict
  cases h1 : check_zero_seconds_trap dm <;> cases h2 : check_short_task dm <;>
    (simp [h1, h2]; try rfl)

/-- Claim C4: the classification partitions durations.  A duration below
300000 ms that does not satisfy the zero-seconds condition has severity
POTENTIAL_FRAUD; a duration satisfying neither heuristic has severity CLEAN;
and at 0 ms the zero-seconds trap does not fire while the short-task flag
does, giving POTENTIAL_FRAUD. -/
theorem verdict_partition (dm : Nat) :
    (dm < 300000 → check_zero_seconds_trap dm = false →
      verdict_severity (get_verdict dm) = Severity.POTENTIAL_FRAUD) ∧
    (check_zero_seconds_trap dm = false → check_short_task dm = false →
      verdict_severity (get_verdict dm) = Severity.CLEAN) ∧
    (check_zero_seconds_trap 0 = false ∧ check_short_task 0 = true ∧
      verdict_severity (get_verdict 0) = Severity.POTENTIAL_FRAUD) := by
  refine ⟨?_, ?_, by decide, ?_, ?_⟩
  · intro h hz
    rw [get_verdict_cases, hz, if_neg (by simp), if_pos ((check_short_task_iff dm).mpr h)]
    decide
  · intro hz hs
    rw [get_verdict_cases, hz, if_neg (by simp), hs, if_neg (by simp)]
    decide
  · rw [check_short_task_eq]; decide
  · rw [get_verdict_eq]; decide

/-- Witness for the partition theorem at 1000 ms (short only) and 301001 ms
(neither heuristic). -/
theorem verdict_partition_witness :
    (1000 < 300000 ∧ check_zero_seconds_trap 1000 = false ∧
      verdict_severity (get_verdict 1000) = Severity.POTENTIAL_FRAUD) ∧
    (check_zero_seconds_trap 301001 = false ∧ check_short_task 301001 = false ∧
      verdict_severity (get_verdict 301001) = Severity.CLEAN) := by
  refine ⟨⟨by decide, by decide, (verdict_partition 1000).1 (by decide) (by decide)⟩,
          ⟨by decide, ?_, (verdict_partition 301001).2.1 (by decide) ?_⟩⟩ <;>
    simp [check_short_task_eq, check_short_task_exec]

/-! ## Group sort and status -/

theorem task_sort_key_congr (x y : (String × String) × List TimeEntry)
    (h : get_task_status x.2 = get_task_status y.2) : task_sort_key x = task_sort_key y := by
  unfold task_sort_key
  rw [h]

/-- Claim C6: the group sort is a stable three-tier severity sort.  The
sorted list is ordered by the tier key (fraud groups first, then potential,
then clean), groups of any one status appear in their original relative
order, and sorting an already sorted list changes nothing. -/
theorem group_sort_stable_three_tier (xs : List ((String × String) × List TimeEntry)) :
    (sortByKey task_sort_key xs).Pairwise (fun a b => task_sort_key a ≤ task_sort_key b) ∧
    (∀ s : String,
      (sortByKey task_sort_key xs).filter (fun g => get_task_status g.2 == s) =
        xs.filter (fun g => get_task_status g.2 == s)) ∧
    sortByKey task_sort_key (sortByKey task_sort_key xs) = sortByKey task_sort_key xs := by
  refine ⟨sortByKey_pairwise task_sort_key xs, ?_, sortByKey_idem task_sort_key xs⟩
  intro s
  refine filter_sortByKey _ task_sort_key xs ?_
  intro x y hx hy
  have hx2 : get_task_status x.2 = s := by simpa using hx
  have hy2 : get_task_status y.2 = s := by simpa using hy
  exact task_sort_key_congr x y (hx2.trans hy2.symm)

/-! ## Error handling -/

/-- Claim C7: the audit fails if and only if the team-members fetch yields no
users, and in that case it fails with the 500 service error; for every
non-empty user list the audit returns a report no matter how the per-user
entry fetches went. -/
theorem empty_users_hard_failure (usersResult : FetchResult TeamPayload)
    (entriesResult : String → FetchResult (List RawEntry)) :
    (run_audit usersResult entriesResult).isOk = !(get_all_users usersResult).isEmpty ∧
    (get_all_users usersResult = [] →
      run_audit usersResult entriesResult =
        .error { status_code := 500, detail := "Failed to fetch users" }) := by
  constructor
  · unfold run_audit
    by_cases h : get_all_users usersResult = [] <;>
      simp [h, Except.isOk, Except.toBool, List.isEmpty_iff]
  · intro h
    unfold run_audit
    simp [h]

/-- Witness for the hard-failure theorem: a failing team call escalates to
the 500 error. -/
theorem empty_users_hard_failure_witness :
    (run_audit (.netError "connection refused") (fun _ => .response 200 (some []))).isOk = false ∧
    run_audit (.netError "connection refused") (fun _ => .response 200 (some [])) =
      .error { status_code := 500, detail := "Failed to fetch users" } := by
  have h := empty_users_hard_failure (.netError "connection refused")
    (fun _ => .response 200 (some []))
  exact ⟨h.1, h.2 rfl⟩

/-- Claim C8: both provider reads are fail-to-empty.  A network error, a
non-2xx status or a malformed payload each make get_all_users and
get_time_entries_for_user return the empty list instead of propagating the
failure. -/
theorem client_fail_to_empty :
    (∀ msg, get_all_users (.netError msg) = []) ∧
    (∀ status body, is2xx status = false → get_all_users (.response status body) = []) ∧
    (∀ status, get_all_users (.response status none) = []) ∧
    (∀ msg, get_time_entries_for_user (.netError msg) = []) ∧
    (∀ status body, is2xx status = false → get_time_entries_for_user (.response status body) = []) ∧
    (∀ status, get_time_entries_for_user (.response status none) = []) := by
  refine ⟨fun _ => rfl, ?_, ?_, fun _ => rfl, ?_, ?_⟩
  · intro s b h
    simp [get_all_users, h]
  · intro s
    unfold get_all_users
    by_cases h : is2xx s <;> simp [h]
  · intro s b h
    simp [get_time_entries_for_user, h]
  · intro s
    unfold get_time_entries_for_user
    by_cases h : is2xx s <;> simp [h]

/-- Witness for the fail-to-empty theorem across all three failure kinds and
both operations. -/
theorem client_fail_to_empty_witness :
    get_all_users (.netError "timeout") = [] ∧
    is2xx 500 = false ∧
    get_all_users (.response 500 (some { members := [] })) = [] ∧
    get_all_users (.response 200 none) = [] ∧
    get_time_entries_for_user (.netError "timeout") = [] ∧
    is2xx 404 = false ∧
    get_time_entries_for_user (.response 404 (some [])) = [] ∧
    get_time_entries_for_user (.response 200 none) = [] :=
  ⟨client_fail_to_empty.1 "timeout", by decide,
   client_fail_to_empty.2.1 500 _ (by decide), client_fail_to_empty.2.2.1 200,
   client_fail_to_empty.2.2.2.1 "timeout", by decide,
   client_fail_to_empty.2.2.2.2.1 404 _ (by decide), client_fail_to_empty.2.2.2.2.2 200⟩

/-! ## Concatenation order of the concurrent fetch -/

theorem foldl_append_flatten {α : Type*} (ls : List (List α)) :
    ∀ acc : List α, ls.foldl (fun a b => a ++ b) acc = acc ++ ls.flatten := by
  induction ls with
  | nil => intro acc; simp
  | cons l ls ih => intro acc; simp [List.foldl_cons, ih]

/-- Claim C10: for every list of user ids, get_all_time_entries returns
exactly the concatenation of the per-user entry lists in the order of the
given user-id list, so the cross-user order of the combined result is
deterministic given each user's result. -/
theorem all_time_entries_concat (entriesResult : String → FetchResult (List RawEntry))
    (user_ids : List String) :
    get_all_time_entries entriesResult user_ids =
      (user_ids.map (fun uid => get_time_entries_for_user (entriesResult uid))).flatten := by
  unfold get_all_time_entries
  rw [foldl_append_flatten]
  simp

/-! ## Evaluations of the aggregator on concrete runs -/

/-- Claim C1, evaluated at the failing input 60000 ms (an exact minute below
the short threshold, so both heuristics fire).  The zero-seconds trap fires
and the verdict string carries the FRAUD signature marker, yet the
aggregator derives severity POTENTIAL_FRAUD from the combined string, counts
the entry in the potential bucket of the summary (fraud 0, potential 1) and
gives its group the status potential.  This contradicts the claim that such
an entry is counted in the fraud bucket and sorted in the FRAUD tier. -/
theorem both_heuristics_counted_potential :
    check_zero_seconds_trap 60000 = true ∧
    strContains (get_verdict 60000) "FRAUD (0s Signature)" = true ∧
    verdict_severity (get_verdict 60000) = Severity.POTENTIAL_FRAUD ∧
    Except.map (fun r => (r.summary.fraud, r.summary.potential, r.tasks.map (fun g => g.status)))
      (run_audit sampleUsersResult (fun _ => .response 200 (some [entryWithDuration 60000])))
    = .ok (0, 1, ["potential"]) := by
  refine ⟨by decide, ?_, ?_, ?_⟩
  · rw [get_verdict_eq]; decide
  · rw [get_verdict_eq]; decide
  · rw [run_audit_eq]; rfl

/-- Claim C2, evaluated at the failing input: a group whose single entry has
duration 120000 ms (exactly two minutes, so the zero-seconds rule fires and
per the specification the entry's severity is FRAUD) receives group status
potential, because the entry also triggered the short-duration rule and the
group-status test does not recognise the combined verdict string as
fraud. -/
theorem group_status_demoted :
    check_zero_seconds_trap 120000 = true ∧
    strContains (get_verdict 120000) "FRAUD (0s Signature)" = true ∧
    get_task_status [⟨"alice", "alice@example.com", ms_to_duration_str 120000, 120000,
      get_verdict 120000⟩] = "potential" := by
  refine ⟨by decide, ?_, ?_⟩ <;> rw [get_verdict_eq] <;> decide

/-- Claim C3: three entries of 600000, 120000 and 3600000 ms under one task
produce a single group of status fraud, and in its sorted entry list the two
entries classified only by the zero-seconds rule (600000 and 3600000)
precede the 120000 entry. -/
theorem three_entry_scenario :
    Except.map (fun r => r.tasks.map (fun g => (g.status, g.entries.map (fun e => e.duration_ms))))
      (run_audit sampleUsersResult (fun _ => .response 200 (some
        [entryWithDuration 600000, entryWithDuration 120000, entryWithDuration 3600000])))
    = .ok [("fraud", [600000, 3600000, 120000])] := by
  rw [run_audit_eq]; rfl
